import Mathlib

/-!
Verification of the micro-a2a protocol core: a shallow embedding of the
JSON codec layer (parts, messages, artifacts, tasks, JSON-RPC envelopes),
the task lifecycle enumeration and the stream correlator of the Go source,
together with theorems settling the specification claims.

JSON values are modelled as an inductive tree; Go byte slices holding JSON
are represented by the parsed tree (the codec never inspects raw bytes
other than through encoding/json). A Go map of type map[string]T is
represented as an association list; the Go nil map and the empty map both
denote the empty list (the encoding/json package treats them identically
on decode, and the difference is invisible to every codec operation
modelled here). Likewise a nil slice and an empty slice are both the empty
list. Go errors are the error message carried in an Except; messages are
kept close to the source but punctuation is simplified.
-/

namespace MicroA2A

/-- A JSON value. Numbers are modelled as integers: every numeric literal
the codec manipulates (ids, error codes, history lengths, indexes) is
integral, and fractional parts play no role in any claim. -/
inductive Json where
  | null
  | bool (b : Bool)
  | num (n : Int)
  | str (s : String)
  | arr (items : List Json)
  | obj (entries : List (String × Json))

/-- Association-list lookup returning the last binding, matching the Go
semantics of unmarshalling a JSON object into a map, where a duplicated
key keeps the final occurrence. -/
def lookupLast (key : String) : List (String × Json) → Option Json
  | [] => none
  | (k, v) :: rest =>
    match lookupLast key rest with
    | some r => some r
    | none => if k = key then some v else none

/-- A Go map with string keys (map[string]any), as an association list.
The Go nil map and the empty map are both the empty list. Lists with a
duplicated key do not arise from Go map values. -/
abbrev GoMap := List (String × Json)

/-- Go json.Unmarshal of a JSON value into map[string]interface: an object
yields its entries, null leaves the map nil, anything else is a type
error carrying the given message. -/
def Json.asMap (errMsg : String) : Json → Except String GoMap
  | .null => .ok []
  | .obj kvs => .ok kvs
  | _ => .error errMsg

/-- Whether a JSON value is an object carrying the given key. -/
def jsonHasKey (j : Json) (key : String) : Bool :=
  match j with
  | .obj kvs => (lookupLast key kvs).isSome
  | _ => false

/-!
Struct-field decoding helpers, following encoding/json: a field that is
absent, or whose value is null, keeps the zero value of its Go type; a
value of the wrong JSON kind is a type error. When several fields are
ill-typed Go reports the first offending key in input order while these
helpers are applied in struct field order; the two decoders fail on
exactly the same inputs.
-/

/-- Decode a string struct field. -/
def getStr (kvs : GoMap) (key : String) : Except String String :=
  match lookupLast key kvs with
  | none => .ok ("")
  | some .null => .ok ("")
  | some (.str s) => .ok s
  | some _ => .error ("cannot unmarshal field " ++ key)

/-- Decode a bool struct field. -/
def getBool (kvs : GoMap) (key : String) : Except String Bool :=
  match lookupLast key kvs with
  | none => .ok false
  | some .null => .ok false
  | some (.bool b) => .ok b
  | some _ => .error ("cannot unmarshal field " ++ key)

/-- Decode an int struct field. -/
def getInt (kvs : GoMap) (key : String) : Except String Int :=
  match lookupLast key kvs with
  | none => .ok 0
  | some .null => .ok 0
  | some (.num n) => .ok n
  | some _ => .error ("cannot unmarshal field " ++ key)

/-- Decode a map[string]any struct field. -/
def getMap (kvs : GoMap) (key : String) : Except String GoMap :=
  match lookupLast key kvs with
  | none => .ok []
  | some .null => .ok []
  | some (.obj m) => .ok m
  | some _ => .error ("cannot unmarshal field " ++ key)

/-- Decode a raw-message list struct field (a field of type
List json.RawMessage): the elements are kept undecoded. -/
def getRawList (kvs : GoMap) (key : String) : Except String (List Json) :=
  match lookupLast key kvs with
  | none => .ok []
  | some .null => .ok []
  | some (.arr items) => .ok items
  | some _ => .error ("cannot unmarshal field " ++ key)

/-- Decode a string-list struct field. -/
def getStrList (kvs : GoMap) (key : String) : Except String (List String) :=
  match lookupLast key kvs with
  | none => .ok []
  | some .null => .ok []
  | some (.arr items) =>
    items.mapM fun it =>
      match it with
      | .str s => .ok s
      | _ => .error ("cannot unmarshal element of field " ++ key)
  | some _ => .error ("cannot unmarshal field " ++ key)

/-- Decode a map[string]string struct field. -/
def getStrMap (kvs : GoMap) (key : String) : Except String (List (String × String)) :=
  match lookupLast key kvs with
  | none => .ok []
  | some .null => .ok []
  | some (.obj m) =>
    m.mapM fun kv =>
      match kv.2 with
      | .str s => .ok (kv.1, s)
      | _ => .error ("cannot unmarshal element of field " ++ key)
  | some _ => .error ("cannot unmarshal field " ++ key)

/-!
Marshalling helpers: omitempty fields are omitted at the Go zero value.
-/

/-- Marshal an omitempty string field. -/
def optStrEntry (key : String) (s : String) : List (String × Json) :=
  if s = "" then [] else [(key, .str s)]

/-- Marshal an omitempty int field. -/
def optIntEntry (key : String) (n : Int) : List (String × Json) :=
  if n = 0 then [] else [(key, .num n)]

/-- Marshal an omitempty map field. -/
def optMapEntry (key : String) (m : GoMap) : List (String × Json) :=
  match m with
  | [] => []
  | _ => [(key, .obj m)]

/-- Marshal an omitempty string-list field. -/
def optStrListEntry (key : String) (l : List String) : List (String × Json) :=
  if l = [] then [] else [(key, .arr (l.map .str))]

/-!
### Part codec (src/pkg/a2a/task.go)

The Part interface has three concrete implementations: TextPart, FilePart
and DataPart, each a struct whose first field is the kind discriminator.
-/

/-- PartTypeText tag. -/
def PartTypeText : String := "text"

/-- PartTypeFile tag. -/
def PartTypeFile : String := "file"

/-- PartTypeData tag. -/
def PartTypeData : String := "data"

/-- FileBase of task.go: the file payload of a FilePart. All four fields
are omitempty strings. -/
structure FileBase where
  name : String
  mimeType : String
  bytes : String
  uri : String

/-- The Part tagged union: TextPart, FilePart and DataPart of task.go,
each carrying its kind discriminator string and optional metadata. -/
inductive Part where
  | text (kind : String) (text : String) (metadata : GoMap)
  | file (kind : String) (file : FileBase) (metadata : GoMap)
  | data (kind : String) (data : GoMap) (metadata : GoMap)

/-- json.Marshal of FileBase. -/
def marshalFileBase (f : FileBase) : Json :=
  .obj (optStrEntry ("name") f.name ++ optStrEntry ("mimeType") f.mimeType ++
    optStrEntry ("bytes") f.bytes ++ optStrEntry ("uri") f.uri)

/-- json.Marshal of a TextPart value (fields kind, text, metadata). -/
def marshalTextPart (kind text : String) (metadata : GoMap) : Json :=
  .obj ([("kind", .str kind), ("text", .str text)] ++ optMapEntry ("metadata") metadata)

/-- json.Marshal of a FilePart value (fields kind, file, metadata). -/
def marshalFilePart (kind : String) (f : FileBase) (metadata : GoMap) : Json :=
  .obj ([("kind", .str kind), ("file", marshalFileBase f)] ++ optMapEntry ("metadata") metadata)

/-- json.Marshal of a DataPart value (fields kind, data, metadata). -/
def marshalDataPart (kind : String) (d : GoMap) (metadata : GoMap) : Json :=
  .obj ([("kind", .str kind), ("data", .obj d)] ++ optMapEntry ("metadata") metadata)

/-- Default json.Marshal of a Part interface value, with no kind
defaulting; this is the path taken when an Artifact is marshalled, since
Artifact has no custom marshaller. -/
def marshalPartDefault : Part → Json
  | .text k t md => marshalTextPart k t md
  | .file k f md => marshalFilePart k f md
  | .data k d md => marshalDataPart k d md

/-- encodePart: the per-variant branch of Message.MarshalJSON in task.go.
It defaults the kind discriminator from the variant identity when the
stored field is empty, then marshals the concrete struct. -/
def encodePart : Part → Json
  | .text k t md => marshalTextPart (if k = "" then PartTypeText else k) t md
  | .file k f md => marshalFilePart (if k = "" then PartTypeFile else k) f md
  | .data k d md => marshalDataPart (if k = "" then PartTypeData else k) d md

/-- The discriminator field stored in a Part value. -/
def partKind : Part → String
  | .text k _ _ => k
  | .file k _ _ => k
  | .data k _ _ => k

/-- The tag that belongs to the variant identity of a Part value. -/
def partTag : Part → String
  | .text _ _ _ => PartTypeText
  | .file _ _ _ => PartTypeFile
  | .data _ _ _ => PartTypeData

/-- json.Unmarshal into a TextPart struct. -/
def unmarshalTextPart (j : Json) : Except String Part :=
  match j with
  | .null => .ok (.text ("") ("") [])
  | .obj kvs => do
    let kind ← getStr kvs ("kind")
    let text ← getStr kvs ("text")
    let metadata ← getMap kvs ("metadata")
    .ok (.text kind text metadata)
  | _ => .error ("cannot unmarshal into TextPart")

/-- json.Unmarshal into a FileBase struct. -/
def unmarshalFileBase (j : Json) : Except String FileBase :=
  match j with
  | .null => .ok ⟨"", "", "", ""⟩
  | .obj kvs => do
    let name ← getStr kvs ("name")
    let mimeType ← getStr kvs ("mimeType")
    let bytes ← getStr kvs ("bytes")
    let uri ← getStr kvs ("uri")
    .ok ⟨name, mimeType, bytes, uri⟩
  | _ => .error ("cannot unmarshal into FileBase")

/-- json.Unmarshal into a FilePart struct. -/
def unmarshalFilePart (j : Json) : Except String Part :=
  match j with
  | .null => .ok (.file ("") ⟨"", "", "", ""⟩ [])
  | .obj kvs => do
    let kind ← getStr kvs ("kind")
    let f ←
      match lookupLast ("file") kvs with
      | none => .ok (⟨"", "", "", ""⟩ : FileBase)
      | some fj => unmarshalFileBase fj
    let metadata ← getMap kvs ("metadata")
    .ok (.file kind f metadata)
  | _ => .error ("cannot unmarshal into FilePart")

/-- json.Unmarshal into a DataPart struct. -/
def unmarshalDataPart (j : Json) : Except String Part :=
  match j with
  | .null => .ok (.data ("") [] [])
  | .obj kvs => do
    let kind ← getStr kvs ("kind")
    let d ← getMap kvs ("data")
    let metadata ← getMap kvs ("metadata")
    .ok (.data kind d metadata)
  | _ => .error ("cannot unmarshal into DataPart")

/-- unmarshalPart of src/pkg/a2a/task.go: parse the raw part into a
generic map, read the kind value, require it to be a string (the result
of the presence lookup is discarded by the source, so an absent kind
reaches the string assertion as nil and fails with the same message),
then dispatch on it; an unrecognised kind is an error. No fallback to
the legacy type field is performed. -/
def unmarshalPart (j : Json) : Except String Part := do
  let partMap ← j.asMap ("failed to parse part")
  match lookupLast ("kind") partMap with
  | some (.str kindStr) =>
    if kindStr = PartTypeText then
      (unmarshalTextPart j).mapError (fun e => "failed to unmarshal text part: " ++ e)
    else if kindStr = PartTypeFile then
      (unmarshalFilePart j).mapError (fun e => "failed to unmarshal file part: " ++ e)
    else if kindStr = PartTypeData then
      (unmarshalDataPart j).mapError (fun e => "failed to unmarshal data part: " ++ e)
    else
      .error ("unknown part kind: " ++ kindStr)
  | _ => .error ("part kind field must be a string")

/-- The part-decoding loop body of Message.UnmarshalJSON in the earlier
codec version (src/unnamed/part_002): reads the kind discriminator and,
when the key is absent, falls back to the legacy type key; an object
carrying neither fails as missing, a non-string value fails the string
assertion, and dispatch is as in unmarshalPart. -/
def unmarshalPartLegacy (j : Json) : Except String Part := do
  let partMap ← j.asMap ("failed to parse part")
  let kindVal ←
    match lookupLast ("kind") partMap with
    | some v => Except.ok v
    | none =>
      match lookupLast ("type") partMap with
      | some v => Except.ok v
      | none => Except.error ("part missing required kind field")
  match kindVal with
  | .str kindStr =>
    if kindStr = PartTypeText then
      (unmarshalTextPart j).mapError (fun e => "failed to unmarshal text part: " ++ e)
    else if kindStr = PartTypeFile then
      (unmarshalFilePart j).mapError (fun e => "failed to unmarshal file part: " ++ e)
    else if kindStr = PartTypeData then
      (unmarshalDataPart j).mapError (fun e => "failed to unmarshal data part: " ++ e)
    else
      .error ("unknown part kind: " ++ kindStr)
  | _ => .error ("part kind field must be a string")

/-!
### SecurityScheme codec (src/pkg/a2a/agent_card.go)
-/

/-- HTTPAuthSecurityScheme of agent_card.go. -/
structure HTTPAuthSecurityScheme where
  type : String
  scheme : String
  bearerFormat : String
  description : String

/-- ImplicitOAuthFlow of agent_card.go. -/
structure ImplicitOAuthFlow where
  authorizationUrl : String
  refreshUrl : String
  scopes : List (String × String)

/-- AuthorizationCodeOAuthFlow of agent_card.go. -/
structure AuthorizationCodeOAuthFlow where
  authorizationUrl : String
  tokenUrl : String
  refreshUrl : String
  scopes : List (String × String)

/-- ClientCredentialsOAuthFlow of agent_card.go. -/
structure ClientCredentialsOAuthFlow where
  tokenUrl : String
  refreshUrl : String
  scopes : List (String × String)

/-- PasswordOAuthFlow of agent_card.go. -/
structure PasswordOAuthFlow where
  tokenUrl : String
  refreshUrl : String
  scopes : List (String × String)

/-- OAuth2Flows of agent_card.go: four optional flow configurations. -/
structure OAuth2Flows where
  implicit : Option ImplicitOAuthFlow
  authorizationCode : Option AuthorizationCodeOAuthFlow
  clientCredentials : Option ClientCredentialsOAuthFlow
  password : Option PasswordOAuthFlow

/-- OAuth2SecurityScheme of agent_card.go. -/
structure OAuth2SecurityScheme where
  type : String
  description : String
  flows : OAuth2Flows

/-- OpenIdConnectSecurityScheme of agent_card.go. -/
structure OpenIdConnectSecurityScheme where
  type : String
  openIdConnectUrl : String
  description : String

/-- APIKeySecurityScheme of agent_card.go. The source field In (JSON key
in) is named location here because in is reserved in Lean. -/
structure APIKeySecurityScheme where
  type : String
  name : String
  location : String
  description : String

/-- The SecurityScheme tagged union of agent_card.go. -/
inductive SecurityScheme where
  | http (s : HTTPAuthSecurityScheme)
  | oauth2 (s : OAuth2SecurityScheme)
  | openIdConnect (s : OpenIdConnectSecurityScheme)
  | apiKey (s : APIKeySecurityScheme)

/-- json.Unmarshal into an ImplicitOAuthFlow struct. -/
def unmarshalImplicitFlow (j : Json) : Except String ImplicitOAuthFlow :=
  match j with
  | .null => .ok ⟨"", "", []⟩
  | .obj kvs => do
    let a ← getStr kvs ("authorizationUrl")
    let r ← getStr kvs ("refreshUrl")
    let s ← getStrMap kvs ("scopes")
    .ok ⟨a, r, s⟩
  | _ => .error ("cannot unmarshal into ImplicitOAuthFlow")

/-- json.Unmarshal into an AuthorizationCodeOAuthFlow struct. -/
def unmarshalAuthCodeFlow (j : Json) : Except String AuthorizationCodeOAuthFlow :=
  match j with
  | .null => .ok ⟨"", "", "", []⟩
  | .obj kvs => do
    let a ← getStr kvs ("authorizationUrl")
    let t ← getStr kvs ("tokenUrl")
    let r ← getStr kvs ("refreshUrl")
    let s ← getStrMap kvs ("scopes")
    .ok ⟨a, t, r, s⟩
  | _ => .error ("cannot unmarshal into AuthorizationCodeOAuthFlow")

/-- json.Unmarshal into a ClientCredentialsOAuthFlow struct. -/
def unmarshalClientCredFlow (j : Json) : Except String ClientCredentialsOAuthFlow :=
  match j with
  | .null => .ok ⟨"", "", []⟩
  | .obj kvs => do
    let t ← getStr kvs ("tokenUrl")
    let r ← getStr kvs ("refreshUrl")
    let s ← getStrMap kvs ("scopes")
    .ok ⟨t, r, s⟩
  | _ => .error ("cannot unmarshal into ClientCredentialsOAuthFlow")

/-- json.Unmarshal into a PasswordOAuthFlow struct. -/
def unmarshalPasswordFlow (j : Json) : Except String PasswordOAuthFlow :=
  match j with
  | .null => .ok ⟨"", "", []⟩
  | .obj kvs => do
    let t ← getStr kvs ("tokenUrl")
    let r ← getStr kvs ("refreshUrl")
    let s ← getStrMap kvs ("scopes")
    .ok ⟨t, r, s⟩
  | _ => .error ("cannot unmarshal into PasswordOAuthFlow")

/-- Decode an optional (pointer) sub-structure field: absent or null
leaves the pointer nil. -/
def getOptField {α : Type} (kvs : GoMap) (key : String)
    (dec : Json → Except String α) : Except String (Option α) :=
  match lookupLast key kvs with
  | none => .ok none
  | some .null => .ok none
  | some j => (dec j).map some

/-- json.Unmarshal into an OAuth2Flows struct. -/
def unmarshalOAuth2Flows (j : Json) : Except String OAuth2Flows :=
  match j with
  | .null => .ok ⟨none, none, none, none⟩
  | .obj kvs => do
    let i ← getOptField kvs ("implicit") unmarshalImplicitFlow
    let a ← getOptField kvs ("authorizationCode") unmarshalAuthCodeFlow
    let c ← getOptField kvs ("clientCredentials") unmarshalClientCredFlow
    let p ← getOptField kvs ("password") unmarshalPasswordFlow
    .ok ⟨i, a, c, p⟩
  | _ => .error ("cannot unmarshal into OAuth2Flows")

/-- Decode a plain (non-pointer, no custom unmarshaller) sub-structure
field: absent or null keeps the zero value given by the decoder on null. -/
def getStructField {α : Type} (kvs : GoMap) (key : String)
    (dec : Json → Except String α) (zero : α) : Except String α :=
  match lookupLast key kvs with
  | none => .ok zero
  | some j => dec j

/-- json.Unmarshal into an HTTPAuthSecurityScheme struct. -/
def unmarshalHTTPAuthScheme (j : Json) : Except String HTTPAuthSecurityScheme :=
  match j with
  | .null => .ok ⟨"", "", "", ""⟩
  | .obj kvs => do
    let t ← getStr kvs ("type")
    let s ← getStr kvs ("scheme")
    let b ← getStr kvs ("bearerFormat")
    let d ← getStr kvs ("description")
    .ok ⟨t, s, b, d⟩
  | _ => .error ("cannot unmarshal into HTTPAuthSecurityScheme")

/-- json.Unmarshal into an OAuth2SecurityScheme struct. -/
def unmarshalOAuth2Scheme (j : Json) : Except String OAuth2SecurityScheme :=
  match j with
  | .null => .ok ⟨"", "", ⟨none, none, none, none⟩⟩
  | .obj kvs => do
    let t ← getStr kvs ("type")
    let d ← getStr kvs ("description")
    let f ← getStructField kvs ("flows") unmarshalOAuth2Flows ⟨none, none, none, none⟩
    .ok ⟨t, d, f⟩
  | _ => .error ("cannot unmarshal into OAuth2SecurityScheme")

/-- json.Unmarshal into an OpenIdConnectSecurityScheme struct. -/
def unmarshalOpenIdScheme (j : Json) : Except String OpenIdConnectSecurityScheme :=
  match j with
  | .null => .ok ⟨"", "", ""⟩
  | .obj kvs => do
    let t ← getStr kvs ("type")
    let u ← getStr kvs ("openIdConnectUrl")
    let d ← getStr kvs ("description")
    .ok ⟨t, u, d⟩
  | _ => .error ("cannot unmarshal into OpenIdConnectSecurityScheme")

/-- json.Unmarshal into an APIKeySecurityScheme struct. -/
def unmarshalAPIKeyScheme (j : Json) : Except String APIKeySecurityScheme :=
  match j with
  | .null => .ok ⟨"", "", "", ""⟩
  | .obj kvs => do
    let t ← getStr kvs ("type")
    let n ← getStr kvs ("name")
    let l ← getStr kvs ("in")
    let d ← getStr kvs ("description")
    .ok ⟨t, n, l, d⟩
  | _ => .error ("cannot unmarshal into APIKeySecurityScheme")

/-- The per-scheme loop body of AgentCard.UnmarshalJSON in agent_card.go:
parse the raw scheme into a generic map, require a string type value
(absent or non-string fails as missing-or-invalid), dispatch on it in
the source order http, oauth2, openIdConnect, apiKey, and fail on an
unknown type value. The key argument is the map key of the scheme inside
securitySchemes, used in the missing-type error message. -/
def unmarshalSecurityScheme (key : String) (rawScheme : Json) :
    Except String SecurityScheme := do
  let schemeMap ← rawScheme.asMap ("cannot unmarshal security scheme into map")
  match lookupLast ("type") schemeMap with
  | some (.str typeValue) =>
    if typeValue = "http" then
      (unmarshalHTTPAuthScheme rawScheme).map .http
    else if typeValue = "oauth2" then
      (unmarshalOAuth2Scheme rawScheme).map .oauth2
    else if typeValue = "openIdConnect" then
      (unmarshalOpenIdScheme rawScheme).map .openIdConnect
    else if typeValue = "apiKey" then
      (unmarshalAPIKeyScheme rawScheme).map .apiKey
    else
      .error ("unknown security scheme type: " ++ typeValue)
  | _ => .error ("security scheme (" ++ key ++ ") missing or invalid type field")

/-!
### Message, Artifact, TaskStatus, Task and the update events
(src/pkg/a2a/task.go and src/pkg/a2a/operations.go)
-/

/-- MessageKind constant of task.go. -/
def MessageKind : String := "message"

/-- Message of task.go. -/
structure Message where
  kind : String
  messageId : String
  role : String
  parts : List Part
  metadata : GoMap
  taskId : String
  contextId : String
  referenceTaskIds : List String

/-- Message.MarshalJSON of task.go: default the kind when empty, reject
an empty messageId, then marshal each part through the kind-defaulting
switch (encodePart). The unknown-part branch of the Go switch is
unreachable here because Part is a closed union. Field order follows
the Go embedded-struct promotion: the overriding parts field comes last. -/
def marshalMessage (m : Message) : Except String Json :=
  let kind := if m.kind = "" then MessageKind else m.kind
  if m.messageId = "" then .error ("messageId is required")
  else
    .ok (.obj ([("kind", .str kind), ("messageId", .str m.messageId), ("role", .str m.role)]
      ++ optMapEntry ("metadata") m.metadata
      ++ optStrEntry ("taskId") m.taskId
      ++ optStrEntry ("contextId") m.contextId
      ++ optStrListEntry ("referenceTaskIds") m.referenceTaskIds
      ++ [("parts", .arr (m.parts.map encodePart))]))

/-- MessageWrapper of task.go: the container with parts kept raw. -/
structure MessageWrapper where
  kind : String
  messageId : String
  role : String
  partsRaw : List Json
  metadata : GoMap
  taskId : String
  contextId : String
  referenceTaskIds : List String

/-- json.Unmarshal into the MessageWrapper struct. -/
def decodeMessageWrapper (j : Json) : Except String MessageWrapper :=
  match j with
  | .null => .ok ⟨"", "", "", [], [], "", "", []⟩
  | .obj kvs => do
    let kind ← getStr kvs ("kind")
    let messageId ← getStr kvs ("messageId")
    let role ← getStr kvs ("role")
    let partsRaw ← getRawList kvs ("parts")
    let metadata ← getMap kvs ("metadata")
    let taskId ← getStr kvs ("taskId")
    let contextId ← getStr kvs ("contextId")
    let referenceTaskIds ← getStrList kvs ("referenceTaskIds")
    .ok ⟨kind, messageId, role, partsRaw, metadata, taskId, contextId, referenceTaskIds⟩
  | _ => .error ("cannot unmarshal into MessageWrapper")

/-- Message.UnmarshalJSON of task.go: decode the wrapper with raw parts,
reject an empty (or absent) messageId before any part is decoded,
default the kind, then decode each part through unmarshalPart. -/
def unmarshalMessage (j : Json) : Except String Message := do
  let temp ← decodeMessageWrapper j
  if temp.messageId = "" then .error ("messageId is required")
  else do
    let parts ← temp.partsRaw.mapM unmarshalPart
    .ok ⟨if temp.kind = "" then MessageKind else temp.kind, temp.messageId, temp.role,
      parts, temp.metadata, temp.taskId, temp.contextId, temp.referenceTaskIds⟩

/-- Artifact of task.go. -/
structure Artifact where
  artifactId : String
  name : String
  description : String
  parts : List Part
  metadata : GoMap

/-- json.Marshal of an Artifact value. Artifact has no custom marshaller,
so its parts are marshalled through the default interface path with no
kind defaulting. -/
def marshalArtifact (a : Artifact) : Json :=
  .obj ([("artifactId", .str a.artifactId)]
    ++ optStrEntry ("name") a.name ++ optStrEntry ("description") a.description
    ++ [("parts", .arr (a.parts.map marshalPartDefault))]
    ++ optMapEntry ("metadata") a.metadata)

/-- Artifact.UnmarshalJSON of task.go: decode the container with raw
parts, reject an empty (or absent) artifactId before part decoding, then
decode each part through unmarshalPart. -/
def unmarshalArtifact (j : Json) : Except String Artifact := do
  let temp ←
    match j with
    | .null => Except.ok ("", "", "", ([] : GoMap), ([] : List Json))
    | .obj kvs => do
      let aid ← getStr kvs ("artifactId")
      let name ← getStr kvs ("name")
      let desc ← getStr kvs ("description")
      let md ← getMap kvs ("metadata")
      let partsRaw ← getRawList kvs ("parts")
      Except.ok (aid, name, desc, md, partsRaw)
    | _ => Except.error ("cannot unmarshal into Artifact")
  if temp.1 = "" then .error ("artifactId is required")
  else do
    let parts ← temp.2.2.2.2.mapM unmarshalPart
    .ok ⟨temp.1, temp.2.1, temp.2.2.1, parts, temp.2.2.2.1⟩

/-- TaskStatus of task.go: the state string, an optional message pointer
and an omitempty timestamp string. -/
structure TaskStatus where
  state : String
  message : Option Message
  timestamp : String

/-- The zero TaskStatus value. -/
def TaskStatus.zero : TaskStatus := ⟨"", none, ""⟩

/-- json.Marshal of a TaskStatus value; marshalling the optional message
goes through Message.MarshalJSON and can fail. -/
def marshalTaskStatus (ts : TaskStatus) : Except String Json := do
  let msgEntry ←
    match ts.message with
    | none => Except.ok ([] : List (String × Json))
    | some m => (marshalMessage m).map (fun mj => [("message", mj)])
  .ok (.obj ([("state", .str ts.state)] ++ msgEntry ++ optStrEntry ("timestamp") ts.timestamp))

/-- json.Unmarshal into a TaskStatus struct; a null message leaves the
pointer nil, a present one goes through Message.UnmarshalJSON. -/
def unmarshalTaskStatus (j : Json) : Except String TaskStatus :=
  match j with
  | .null => .ok TaskStatus.zero
  | .obj kvs => do
    let st ← getStr kvs ("state")
    let msg ← getOptField kvs ("message") unmarshalMessage
    let ts ← getStr kvs ("timestamp")
    .ok ⟨st, msg, ts⟩
  | _ => .error ("cannot unmarshal into TaskStatus")

/-- Decode a slice field whose elements have a custom unmarshaller
(such as a list of Message or Artifact): absent or null leaves the slice
nil; a null element is passed to the custom unmarshaller. -/
def getCustomList {α : Type} (kvs : GoMap) (key : String)
    (dec : Json → Except String α) : Except String (List α) :=
  match lookupLast key kvs with
  | none => .ok []
  | some .null => .ok []
  | some (.arr items) => items.mapM dec
  | some _ => .error ("cannot unmarshal field " ++ key)

/-- Task of task.go: kind, id, contextId, status, optional history,
artifacts and metadata. -/
structure Task where
  kind : String
  id : String
  contextId : String
  status : TaskStatus
  history : List Message
  artifacts : List Artifact
  metadata : GoMap

/-- json.Marshal of a Task value; history messages go through
Message.MarshalJSON and can fail. -/
def marshalTask (t : Task) : Except String Json := do
  let statusJson ← marshalTaskStatus t.status
  let historyEntry ←
    match t.history with
    | [] => Except.ok ([] : List (String × Json))
    | hist => (hist.mapM marshalMessage).map (fun js => [("history", .arr js)])
  let artifactsEntry :=
    match t.artifacts with
    | [] => ([] : List (String × Json))
    | arts => [("artifacts", .arr (arts.map marshalArtifact))]
  .ok (.obj ([("kind", .str t.kind), ("id", .str t.id), ("contextId", .str t.contextId),
    ("status", statusJson)] ++ historyEntry ++ artifactsEntry ++ optMapEntry ("metadata") t.metadata))

/-- json.Unmarshal into a Task struct: history and artifacts decode
element-wise through the custom Message and Artifact unmarshallers. -/
def unmarshalTask (j : Json) : Except String Task :=
  match j with
  | .null => .ok ⟨"", "", "", TaskStatus.zero, [], [], []⟩
  | .obj kvs => do
    let kind ← getStr kvs ("kind")
    let id ← getStr kvs ("id")
    let contextId ← getStr kvs ("contextId")
    let status ← getStructField kvs ("status") unmarshalTaskStatus TaskStatus.zero
    let history ← getCustomList kvs ("history") unmarshalMessage
    let artifacts ← getCustomList kvs ("artifacts") unmarshalArtifact
    let metadata ← getMap kvs ("metadata")
    .ok ⟨kind, id, contextId, status, history, artifacts, metadata⟩
  | _ => .error ("cannot unmarshal into Task")

/-- TaskStatusUpdateEvent of operations.go: the task id, the updated
status, the final flag (not omitempty: always serialised) and optional
metadata. -/
structure TaskStatusUpdateEvent where
  id : String
  status : TaskStatus
  final : Bool
  metadata : GoMap

/-- json.Marshal of a TaskStatusUpdateEvent value: id, status and final
are all always emitted. -/
def marshalStatusEvent (e : TaskStatusUpdateEvent) : Except String Json := do
  let statusJson ← marshalTaskStatus e.status
  .ok (.obj ([("id", .str e.id), ("status", statusJson), ("final", .bool e.final)]
    ++ optMapEntry ("metadata") e.metadata))

/-- json.Unmarshal into a TaskStatusUpdateEvent struct. -/
def unmarshalStatusEvent (j : Json) : Except String TaskStatusUpdateEvent :=
  match j with
  | .null => .ok ⟨"", TaskStatus.zero, false, []⟩
  | .obj kvs => do
    let id ← getStr kvs ("id")
    let status ← getStructField kvs ("status") unmarshalTaskStatus TaskStatus.zero
    let final ← getBool kvs ("final")
    let metadata ← getMap kvs ("metadata")
    .ok ⟨id, status, final, metadata⟩
  | _ => .error ("cannot unmarshal into TaskStatusUpdateEvent")

/-- TaskArtifactUpdateEvent of operations.go. -/
structure TaskArtifactUpdateEvent where
  id : String
  artifact : Artifact
  metadata : GoMap

/-- json.Marshal of a TaskArtifactUpdateEvent value. -/
def marshalArtifactEvent (e : TaskArtifactUpdateEvent) : Json :=
  .obj ([("id", .str e.id), ("artifact", marshalArtifact e.artifact)]
    ++ optMapEntry ("metadata") e.metadata)

/-- json.Unmarshal into a TaskArtifactUpdateEvent struct: an absent
artifact keeps the zero value, a present one (null included) goes
through Artifact.UnmarshalJSON. -/
def unmarshalArtifactEvent (j : Json) : Except String TaskArtifactUpdateEvent :=
  match j with
  | .null => .ok ⟨"", ⟨"", "", "", [], []⟩, []⟩
  | .obj kvs => do
    let id ← getStr kvs ("id")
    let artifact ←
      match lookupLast ("artifact") kvs with
      | none => Except.ok (⟨"", "", "", [], []⟩ : Artifact)
      | some aj => unmarshalArtifact aj
    let metadata ← getMap kvs ("metadata")
    .ok ⟨id, artifact, metadata⟩
  | _ => .error ("cannot unmarshal into TaskArtifactUpdateEvent")

/-!
### TaskState (src/pkg/a2a/task.go lines 30 to 51)
-/

/-- TaskStateSubmitted constant. -/
def TaskStateSubmitted : String := "submitted"

/-- TaskStateWorking constant. -/
def TaskStateWorking : String := "working"

/-- TaskStateInputRequired constant. -/
def TaskStateInputRequired : String := "input-required"

/-- TaskStateCompleted constant (a terminal state per the source comment). -/
def TaskStateCompleted : String := "completed"

/-- TaskStateCanceled constant (a terminal state per the source comment). -/
def TaskStateCanceled : String := "canceled"

/-- TaskStateFailed constant (a terminal state per the source comment). -/
def TaskStateFailed : String := "failed"

/-- TaskStateRejected constant (a terminal state per the source comment). -/
def TaskStateRejected : String := "rejected"

/-- TaskStateAuthRequired constant. -/
def TaskStateAuthRequired : String := "auth-required"

/-- TaskStateUnknown constant (effectively terminal per the source comment). -/
def TaskStateUnknown : String := "unknown"

/-- Modelled from the spec: the isTerminal predicate over TaskState. The
source declares the nine TaskState constants and marks completed,
canceled, failed and rejected as terminal states and unknown as
effectively terminal in the declaration comments of src/pkg/a2a/task.go,
but defines no such function and performs no validation with it. -/
def isTerminal (s : String) : Bool :=
  s == TaskStateCompleted || s == TaskStateCanceled || s == TaskStateFailed ||
    s == TaskStateRejected || s == TaskStateUnknown

/-!
### JSON-RPC error model (src/pkg/a2a/a2a_err.go)
-/

/-- JSONRPCError of a2a_err.go. -/
structure JSONRPCError where
  code : Int
  message : String
  data : GoMap

/-- NewError of a2a_err.go. -/
def NewError (code : Int) (message : String) (data : GoMap) : JSONRPCError :=
  ⟨code, message, data⟩

/-- ErrorParse code. -/
def ErrorParse : Int := -32700

/-- ErrorInvalidRequest code. -/
def ErrorInvalidRequest : Int := -32600

/-- ErrorMethodNotFound code. -/
def ErrorMethodNotFound : Int := -32601

/-- ErrorInvalidParams code. -/
def ErrorInvalidParams : Int := -32602

/-- ErrorInternal code. -/
def ErrorInternal : Int := -32603

/-- json.Marshal of a JSONRPCError value. -/
def marshalJSONRPCError (e : JSONRPCError) : Json :=
  .obj ([("code", .num e.code), ("message", .str e.message)] ++ optMapEntry ("data") e.data)

/-- json.Unmarshal into a JSONRPCError struct. -/
def unmarshalJSONRPCError (j : Json) : Except String JSONRPCError :=
  match j with
  | .null => .ok ⟨0, "", []⟩
  | .obj kvs => do
    let code ← getInt kvs ("code")
    let message ← getStr kvs ("message")
    let data ← getMap kvs ("data")
    .ok ⟨code, message, data⟩
  | _ => .error ("cannot unmarshal into JSONRPCError")

/-!
### JSON-RPC response codec (src/pkg/a2a/operations.go)
-/

/-- The Result marker interface of operations.go as a closed union of its
three implementations. -/
inductive ResultV where
  | task (t : Task)
  | statusEvent (e : TaskStatusUpdateEvent)
  | artifactEvent (e : TaskArtifactUpdateEvent)

/-- JSONRPCResponse of operations.go. The any-typed id holds the decoded
JSON value; the Go nil interface (field absent or null) is none. -/
structure JSONRPCResponse where
  jsonrpc : String
  id : Option Json
  result : Option ResultV
  error : Option JSONRPCError

/-- Marshal a concrete result: a Task or status event can fail through a
nested Message.MarshalJSON, an artifact event cannot. -/
def marshalResult : ResultV → Except String Json
  | .task t => marshalTask t
  | .statusEvent e => marshalStatusEvent e
  | .artifactEvent e => .ok (marshalArtifactEvent e)

/-- Marshal the any-typed omitempty id field: only the nil interface is
dropped. -/
def optIdEntry (id : Option Json) : List (String × Json) :=
  match id with
  | none => []
  | some j => [("id", j)]

/-- Decode an any-typed field: absent or null is the nil interface. -/
def getAnyField (kvs : GoMap) (key : String) : Option Json :=
  match lookupLast key kvs with
  | none => none
  | some .null => none
  | some v => some v

/-- JSONRPCResponse.MarshalJSON of operations.go: the wrapper always
emits jsonrpc, emits id unless nil, emits result iff the Result field is
non-nil and error iff the Error pointer is non-nil. No mutual-exclusion
check between result and error is performed. -/
def marshalResponse (r : JSONRPCResponse) : Except String Json := do
  let resultEntry ←
    match r.result with
    | none => Except.ok ([] : List (String × Json))
    | some v => (marshalResult v).map (fun j => [("result", j)])
  let errorEntry :=
    match r.error with
    | none => ([] : List (String × Json))
    | some e => [("error", marshalJSONRPCError e)]
  .ok (.obj ([("jsonrpc", .str r.jsonrpc)] ++ optIdEntry r.id ++ resultEntry ++ errorEntry))

/-- The result-shape inference of JSONRPCResponse.UnmarshalJSON in
operations.go, applied to a present raw result: a null result yields no
result; otherwise the result must parse as a generic map, and the
concrete variant is chosen by key presence, every branch guarded by the
top-level id key: id and status give a Task, id and artifact (without
status) give a TaskArtifactUpdateEvent, id and final (without status or
artifact) give a TaskStatusUpdateEvent, and anything else yields no
result without error. -/
def inferResult (rj : Json) : Except String (Option ResultV) :=
  match rj with
  | .null => .ok none
  | _ => do
    let resultMap ← rj.asMap ("cannot unmarshal result into map")
    if (lookupLast ("id") resultMap).isSome then
      if (lookupLast ("status") resultMap).isSome then
        (unmarshalTask rj).map (fun t => some (.task t))
      else if (lookupLast ("artifact") resultMap).isSome then
        (unmarshalArtifactEvent rj).map (fun e => some (.artifactEvent e))
      else if (lookupLast ("final") resultMap).isSome then
        (unmarshalStatusEvent rj).map (fun e => some (.statusEvent e))
      else .ok none
    else .ok none

/-- JSONRPCResponse.UnmarshalJSON of operations.go: decode the wrapper
fields, then, when a result value is present, run the shape inference on
it. An absent result leaves the response without result. -/
def unmarshalResponse (j : Json) : Except String JSONRPCResponse :=
  match j with
  | .null => .ok ⟨"", none, none, none⟩
  | .obj kvs => do
    let jsonrpc ← getStr kvs ("jsonrpc")
    let id := getAnyField kvs ("id")
    let err ← getOptField kvs ("error") unmarshalJSONRPCError
    match lookupLast ("result") kvs with
    | none => .ok ⟨jsonrpc, id, none, err⟩
    | some rj => (inferResult rj).map (fun res => ⟨jsonrpc, id, res, err⟩)
  | _ => .error ("cannot unmarshal into ResponseWrapper")

/-!
### JSON-RPC request codec (src/pkg/a2a/operations.go)
-/

/-- Method constant tasks/send. -/
def TasksSend : String := "tasks/send"

/-- Method constant tasks/sendSubscribe. -/
def TasksSendSubscribe : String := "tasks/sendSubscribe"

/-- Method constant tasks/get. -/
def TasksGet : String := "tasks/get"

/-- Method constant tasks/cancel. -/
def TasksCancel : String := "tasks/cancel"

/-- Method constant tasks/resubscribe. -/
def TasksResubscribe : String := "tasks/resubscribe"

/-- Method constant tasks/pushNotification/get. -/
def TasksPushNotificationGet : String := "tasks/pushNotification/get"

/-- Method constant tasks/pushNotification/set. -/
def TasksPushNotificationSet : String := "tasks/pushNotification/set"

/-- TaskIDParams of operations.go. -/
structure TaskIDParams where
  id : String
  metadata : GoMap

/-- TaskQueryParams of operations.go. -/
structure TaskQueryParams where
  id : String
  historyLength : Int
  metadata : GoMap

/-- AuthenticationInfo of task.go. -/
structure AuthenticationInfo where
  schemes : List String
  credentials : String

/-- PushNotificationConfig of task.go. -/
structure PushNotificationConfig where
  url : String
  token : String
  authentication : Option AuthenticationInfo

/-- The zero Message value. -/
def Message.zero : Message := ⟨"", "", "", [], [], "", "", []⟩

/-- TaskSendParams of operations.go. -/
structure TaskSendParams where
  id : String
  sessionId : String
  message : Message
  historyLength : Int
  pushNotification : Option PushNotificationConfig
  metadata : GoMap

/-- The Params marker interface of operations.go as a closed union of
the three shapes of the request switch. -/
inductive Params where
  | taskId (p : TaskIDParams)
  | query (p : TaskQueryParams)
  | send (p : TaskSendParams)

/-- json.Unmarshal into a TaskIDParams struct. -/
def unmarshalTaskIDParams (j : Json) : Except String TaskIDParams :=
  match j with
  | .null => .ok ⟨"", []⟩
  | .obj kvs => do
    let id ← getStr kvs ("id")
    let metadata ← getMap kvs ("metadata")
    .ok ⟨id, metadata⟩
  | _ => .error ("cannot unmarshal into TaskIDParams")

/-- json.Unmarshal into a TaskQueryParams struct. -/
def unmarshalTaskQueryParams (j : Json) : Except String TaskQueryParams :=
  match j with
  | .null => .ok ⟨"", 0, []⟩
  | .obj kvs => do
    let id ← getStr kvs ("id")
    let historyLength ← getInt kvs ("historyLength")
    let metadata ← getMap kvs ("metadata")
    .ok ⟨id, historyLength, metadata⟩
  | _ => .error ("cannot unmarshal into TaskQueryParams")

/-- json.Unmarshal into an AuthenticationInfo struct. -/
def unmarshalAuthenticationInfo (j : Json) : Except String AuthenticationInfo :=
  match j with
  | .null => .ok ⟨[], ""⟩
  | .obj kvs => do
    let schemes ← getStrList kvs ("schemes")
    let credentials ← getStr kvs ("credentials")
    .ok ⟨schemes, credentials⟩
  | _ => .error ("cannot unmarshal into AuthenticationInfo")

/-- json.Unmarshal into a PushNotificationConfig struct. -/
def unmarshalPushNotificationConfig (j : Json) : Except String PushNotificationConfig :=
  match j with
  | .null => .ok ⟨"", "", none⟩
  | .obj kvs => do
    let url ← getStr kvs ("url")
    let token ← getStr kvs ("token")
    let authentication ← getOptField kvs ("authentication") unmarshalAuthenticationInfo
    .ok ⟨url, token, authentication⟩
  | _ => .error ("cannot unmarshal into PushNotificationConfig")

/-- json.Unmarshal into a TaskSendParams struct; a present message value
(null included) goes through Message.UnmarshalJSON, an absent one keeps
the zero Message. -/
def unmarshalTaskSendParams (j : Json) : Except String TaskSendParams :=
  match j with
  | .null => .ok ⟨"", "", Message.zero, 0, none, []⟩
  | .obj kvs => do
    let id ← getStr kvs ("id")
    let sessionId ← getStr kvs ("sessionId")
    let message ←
      match lookupLast ("message") kvs with
      | none => Except.ok Message.zero
      | some mj => unmarshalMessage mj
    let historyLength ← getInt kvs ("historyLength")
    let pushNotification ← getOptField kvs ("pushNotification") unmarshalPushNotificationConfig
    let metadata ← getMap kvs ("metadata")
    .ok ⟨id, sessionId, message, historyLength, pushNotification, metadata⟩
  | _ => .error ("cannot unmarshal into TaskSendParams")

/-- RequestWrapper of operations.go: params are kept raw; none records
an absent params key, while a JSON null params value is kept as the null
raw message, exactly as a Go json.RawMessage does. -/
structure RequestWrapper where
  jsonrpc : String
  id : Option Json
  method : String
  params : Option Json

/-- json.Unmarshal into the RequestWrapper struct. -/
def decodeRequestWrapper (j : Json) : Except String RequestWrapper :=
  match j with
  | .null => .ok ⟨"", none, "", none⟩
  | .obj kvs => do
    let jsonrpc ← getStr kvs ("jsonrpc")
    let id := getAnyField kvs ("id")
    let method ← getStr kvs ("method")
    .ok ⟨jsonrpc, id, method, lookupLast ("params") kvs⟩
  | _ => .error ("cannot unmarshal into RequestWrapper")

/-- JSONRPCRequest of operations.go. -/
structure JSONRPCRequest where
  jsonrpc : String
  id : Option Json
  method : String
  params : Option Params

/-- The per-method params dispatch of JSONRPCRequest.UnmarshalJSON in
operations.go: for the five methods of the switch the raw params are
decoded against the method-specific shape (an absent params field makes
json.Unmarshal fail on empty input), and the raw decode error is
propagated as is; for any other method the default branch returns
without error and leaves the params nil. -/
def decodeParamsFor (method : String) (raw : Option Json) : Except String (Option Params) :=
  if method = TasksCancel ∨ method = TasksResubscribe then
    match raw with
    | none => .error ("unexpected end of JSON input")
    | some pj => (unmarshalTaskIDParams pj).map (fun p => some (.taskId p))
  else if method = TasksGet then
    match raw with
    | none => .error ("unexpected end of JSON input")
    | some pj => (unmarshalTaskQueryParams pj).map (fun p => some (.query p))
  else if method = TasksSend ∨ method = TasksSendSubscribe then
    match raw with
    | none => .error ("unexpected end of JSON input")
    | some pj => (unmarshalTaskSendParams pj).map (fun p => some (.send p))
  else .ok none

/-- JSONRPCRequest.UnmarshalJSON of operations.go: decode the wrapper,
then decode the params according to the method. -/
def unmarshalRequest (j : Json) : Except String JSONRPCRequest := do
  let temp ← decodeRequestWrapper j
  let params ← decodeParamsFor temp.method temp.params
  .ok ⟨temp.jsonrpc, temp.id, temp.method, params⟩

/-- json.Marshal of an AuthenticationInfo value. -/
def marshalAuthenticationInfo (a : AuthenticationInfo) : Json :=
  .obj ([("schemes", .arr (a.schemes.map .str))] ++ optStrEntry ("credentials") a.credentials)

/-- json.Marshal of a PushNotificationConfig value. -/
def marshalPushNotificationConfig (p : PushNotificationConfig) : Json :=
  .obj ([("url", .str p.url)] ++ optStrEntry ("token") p.token ++
    (match p.authentication with
     | none => []
     | some a => [("authentication", marshalAuthenticationInfo a)]))

/-- json.Marshal of a Params value: TaskSendParams embeds a Message whose
custom marshaller can fail. -/
def marshalParams : Params → Except String Json
  | .taskId p => .ok (.obj ([("id", .str p.id)] ++ optMapEntry ("metadata") p.metadata))
  | .query p =>
    .ok (.obj ([("id", .str p.id)] ++ optIntEntry ("historyLength") p.historyLength ++
      optMapEntry ("metadata") p.metadata))
  | .send p => do
    let mj ← marshalMessage p.message
    .ok (.obj ([("id", .str p.id)] ++ optStrEntry ("sessionId") p.sessionId ++ [("message", mj)] ++
      optIntEntry ("historyLength") p.historyLength ++
      (match p.pushNotification with
       | none => []
       | some pc => [("pushNotification", marshalPushNotificationConfig pc)]) ++
      optMapEntry ("metadata") p.metadata))

/-- JSONRPCRequest.MarshalJSON of operations.go: jsonrpc and method are
always emitted, the id unless nil, and the params are marshalled
generically and embedded when non-nil. -/
def marshalRequest (r : JSONRPCRequest) : Except String Json := do
  let paramsEntry ←
    match r.params with
    | none => Except.ok ([] : List (String × Json))
    | some p => (marshalParams p).map (fun pj => [("params", pj)])
  .ok (.obj ([("jsonrpc", .str r.jsonrpc)] ++ optIdEntry r.id ++ [("method", .str r.method)] ++
    paramsEntry))

/-!
### Stream correlator (src/pkg/a2a/client.go)

The backing key-value store is an external collaborator; its model below
follows the contract the spec gives for it (write with a ttl, read that
cannot tell an expired record from a missing one).
-/

/-- Modelled from the spec: one record of the key-value store
collaborator, carrying the key, the stored value and the absolute expiry
deadline. -/
structure StoreRecord where
  key : String
  value : Json
  deadline : Nat

/-- Modelled from the spec: the key-value store collaborator state. -/
abbrev Store := List StoreRecord

/-- Modelled from the spec: write(key, value, ttl) of the store
collaborator; upserts the record with deadline now plus the ttl. -/
def storeWrite (now : Nat) (s : Store) (key : String) (value : Json) (expiry : Nat) : Store :=
  ⟨key, value, now + expiry⟩ :: s.filter (fun r => !(r.key == key))

/-- Modelled from the spec: read(key) of the store collaborator; a key
that was never written and one whose ttl has elapsed are equally absent,
and the two failures are indistinguishable to the caller. -/
def storeRead (now : Nat) (s : Store) (key : String) : Option Json :=
  match s.find? (fun r => r.key == key) with
  | some r => if now < r.deadline then some r.value else none
  | none => none

/-- The HTTP reply written by the tasks/sendSubscribe branch of
agentHandler: a JSON error with an HTTP status, or the bare 200
acknowledgment with a nil body. -/
inductive SubscribeReply where
  | jsonError (status : Nat) (e : JSONRPCError)
  | okNull

/-- The string the store key is built from (fmt.Sprintf of the decoded
request id). Ids produced by the client are JSON strings; numbers and
booleans print their literal, and composite values do not occur as ids
on this path. -/
def jsonKey : Json → String
  | .str s => s
  | .num n => toString n
  | .bool b => toString b
  | _ => ""

/-- The tasks/sendSubscribe branch of agentHandler in client.go: reject a
nil request id with an InvalidRequest error, marshal the whole request
(failure is an Internal error), store the serialised request under the
printed id with a sixty second expiry, and acknowledge with 200 and a
nil body. The write-error branch of the source is unreachable here
because the modelled store write is total. -/
def handleSendSubscribe (now : Nat) (store : Store) (r : JSONRPCRequest) :
    Store × SubscribeReply :=
  match r.id with
  | none => (store, .jsonError 400 (NewError ErrorInvalidRequest ("ID shouldnt be nil") []))
  | some idJson =>
    match marshalRequest r with
    | .error _ => (store, .jsonError 500 (NewError ErrorInternal ("faild to Marshal request") []))
    | .ok raw => (storeWrite now store (jsonKey idJson) raw 60, .okNull)

/-- The outcome of streamHandlerMiddleware: an error reply written to the
client with no stream handler attached and no channel created, or a
stream handler launched on the recovered request with a fresh result
channel of the given capacity. -/
inductive StreamOutcome where
  | errorResp (status : Nat) (e : JSONRPCError)
  | attached (req : JSONRPCRequest) (channelCapacity : Nat)

/-- streamHandlerMiddleware of client.go: require the id query parameter,
read the persisted request from the store (a missing and an expired
record are the same read failure), deserialise it, and only then start
the stream handler with a channel of capacity one. -/
def streamHandlerMiddleware (now : Nat) (store : Store) (queryId : Option String) :
    StreamOutcome :=
  match queryId with
  | none => .errorResp 400 (NewError ErrorInvalidRequest ("URL is missing id query") [])
  | some id =>
    match storeRead now store id with
    | none => .errorResp 500 (NewError ErrorInternal ("request id no found") [])
    | some raw =>
      match unmarshalRequest raw with
      | .error _ => .errorResp 500 (NewError ErrorInternal ("failed to Unmarshal req from store") [])
      | .ok r => .attached r 1

/-!
## General lemmas about the embedding
-/

/-- Bind on Except propagates an error. -/
theorem error_bind {α β : Type} (e : String) (f : α → Except String β) :
    ((Except.error e : Except String α) >>= f) = .error e := rfl

/-- Bind on Except continues from a success. -/
theorem ok_bind {α β : Type} (a : α) (f : α → Except String β) :
    ((Except.ok a : Except String α) >>= f) = f a := rfl

/-- Map on Except applied to a success. -/
theorem map_ok {α β : Type} (a : α) (f : α → β) :
    (Except.ok a : Except String α).map f = .ok (f a) := rfl

/-- Map on Except applied to an error. -/
theorem map_error {α β : Type} (e : String) (f : α → β) :
    (Except.error e : Except String α).map f = .error e := rfl

/-- A bound Except computation succeeds exactly when both stages do. -/
theorem bind_eq_ok_iff {α β : Type} {x : Except String α} {f : α → Except String β} {b : β} :
    x >>= f = .ok b ↔ ∃ a, x = .ok a ∧ f a = .ok b := by
  cases x with
  | error e => simp [error_bind]
  | ok a => simp [ok_bind]

/-- Looking a key up in concatenated entry lists prefers the later list. -/
theorem lookupLast_append (key : String) (l1 l2 : GoMap) :
    lookupLast key (l1 ++ l2) =
      match lookupLast key l2 with
      | some v => some v
      | none => lookupLast key l1 := by
  induction l1 with
  | nil =>
    cases h : lookupLast key l2 <;> simp [lookupLast, h]
  | cons kv rest ih =>
    obtain ⟨k, v⟩ := kv
    have hstep : lookupLast key ((k, v) :: (rest ++ l2)) =
        match lookupLast key (rest ++ l2) with
        | some r => some r
        | none => if k = key then some v else none := rfl
    rw [List.cons_append, hstep, ih]
    cases h : lookupLast key l2 <;> simp [lookupLast]

/-!
## Claim theorems
-/

/-- Claim C5. When decoding a part the source of src/pkg/a2a/task.go reads the
kind discriminator but never falls back to the legacy type field: the
result of the presence lookup for kind is immediately shadowed, so a
part carrying only the legacy type discriminator (the very shape used by
the repository README examples and still accepted by the earlier decoder
kept in src/unnamed/part_002, modelled as unmarshalPartLegacy) fails
with the malformed-kind error instead of decoding as a text part. -/
theorem C5_legacy_type_fallback_missing :
    unmarshalPart (.obj [("type", .str ("text")), ("text", .str ("what is the current time"))]) =
      .error ("part kind field must be a string") ∧
    unmarshalPartLegacy
        (.obj [("type", .str ("text")), ("text", .str ("what is the current time"))]) =
      .ok (.text ("") ("what is the current time") []) :=
  ⟨rfl, rfl⟩

/-- Claim C4. Decoding a part object whose kind discriminator is a string
outside the tag set text, file, data always fails with the unknown-kind
error, and decoding a security scheme object whose type discriminator is
a string outside the tag set http, oauth2, openIdConnect, apiKey always
fails with the unknown-type error; neither object is dropped or
accepted. -/
theorem C4_unknown_discriminator_fails :
    (∀ (kvs : GoMap) (s : String), lookupLast ("kind") kvs = some (.str s) →
      s ≠ PartTypeText → s ≠ PartTypeFile → s ≠ PartTypeData →
      unmarshalPart (.obj kvs) = .error ("unknown part kind: " ++ s)) ∧
    (∀ (key : String) (kvs : GoMap) (s : String), lookupLast ("type") kvs = some (.str s) →
      s ≠ "http" → s ≠ "oauth2" → s ≠ "openIdConnect" → s ≠ "apiKey" →
      unmarshalSecurityScheme key (.obj kvs) =
        .error ("unknown security scheme type: " ++ s)) := by
  constructor
  · intro kvs s h h1 h2 h3
    simp [unmarshalPart, Json.asMap, ok_bind, h, h1, h2, h3]
  · intro key kvs s h h1 h2 h3 h4
    simp [unmarshalSecurityScheme, Json.asMap, ok_bind, h, h1, h2, h3, h4]

/-- Witness for C4 at concrete inputs: the part kind video and the
security scheme type basic are rejected with the respective errors. -/
theorem C4_unknown_discriminator_fails_witness :
    unmarshalPart (.obj [("kind", .str ("video"))]) =
      .error ("unknown part kind: " ++ "video") ∧
    unmarshalSecurityScheme ("k") (.obj [("type", .str ("basic"))]) =
      .error ("unknown security scheme type: " ++ "basic") :=
  ⟨C4_unknown_discriminator_fails.1 _ _ rfl (by decide) (by decide) (by decide),
   C4_unknown_discriminator_fails.2 _ _ _ rfl (by decide) (by decide) (by decide) (by decide)⟩

/-- Claim C9, counterexample. The codec performs no validation pairing a final
status update with a terminal state: the event with final true and the
non-terminal state working is decoded without error (and working is not
in the terminal set), refuting the claim that the model validates the
pairing. -/
theorem C9_counterexample :
    unmarshalStatusEvent
        (.obj [("id", .str ("t1")), ("status", .obj [("state", .str ("working"))]),
          ("final", .bool true)]) =
      .ok ⟨"t1", ⟨"working", none, ""⟩, true, []⟩ ∧
    isTerminal ("working") = false :=
  ⟨rfl, rfl⟩

/-- Claim C9, as amended. The terminal states of the TaskState enumeration are
exactly completed, canceled, failed, rejected and unknown (the
spec-modelled isTerminal returns true on precisely those five of the
nine declared states), but the code performs no validation that a
TaskStatusUpdateEvent with final true carries a terminal state: the
final working event is both encoded and decoded without error. -/
theorem C9_terminal_states_not_validated :
    (isTerminal TaskStateCompleted = true ∧ isTerminal TaskStateCanceled = true ∧
      isTerminal TaskStateFailed = true ∧ isTerminal TaskStateRejected = true ∧
      isTerminal TaskStateUnknown = true) ∧
    (isTerminal TaskStateSubmitted = false ∧ isTerminal TaskStateWorking = false ∧
      isTerminal TaskStateInputRequired = false ∧ isTerminal TaskStateAuthRequired = false) ∧
    marshalStatusEvent ⟨"t1", ⟨TaskStateWorking, none, ""⟩, true, []⟩ =
      .ok (.obj [("id", .str ("t1")), ("status", .obj [("state", .str ("working"))]),
        ("final", .bool true)]) ∧
    unmarshalStatusEvent
        (.obj [("id", .str ("t1")), ("status", .obj [("state", .str ("working"))]),
          ("final", .bool true)]) =
      .ok ⟨"t1", ⟨TaskStateWorking, none, ""⟩, true, []⟩ := by
  refine ⟨⟨rfl, rfl, rfl, rfl, rfl⟩, ⟨rfl, rfl, rfl, rfl⟩, rfl, rfl⟩

/-- Round-trip of the FileBase payload: decoding its marshalled form
recovers the original value, since a field omitted as empty decodes back
to the empty string. -/
theorem unmarshalFileBase_marshal (f : FileBase) :
    unmarshalFileBase (marshalFileBase f) = .ok f := by
  obtain ⟨n, m, b, u⟩ := f
  by_cases h1 : n = "" <;> by_cases h2 : m = "" <;> by_cases h3 : b = "" <;>
    by_cases h4 : u = "" <;>
    simp [marshalFileBase, optStrEntry, unmarshalFileBase, getStr, lookupLast, ok_bind,
      h1, h2, h3, h4]

/-- Claim C3. For every Part value whose discriminator field holds its own
variant tag, decoding the bytes produced by encoding the part yields the
part back unchanged: unmarshalPart after encodePart is the identity on
such parts. -/
theorem C3_part_roundtrip (p : Part) (h : partKind p = partTag p) :
    unmarshalPart (encodePart p) = .ok p := by
  cases p with
  | text k t md =>
    simp only [partKind, partTag] at h
    subst h
    cases md <;> rfl
  | file k f md =>
    simp only [partKind, partTag] at h
    subst h
    have hf := unmarshalFileBase_marshal f
    cases md <;>
      simp [encodePart, marshalFilePart, optMapEntry, unmarshalPart, Json.asMap, ok_bind,
        lookupLast, unmarshalFilePart, getStr, getMap, hf, PartTypeFile, PartTypeText,
        PartTypeData, Except.mapError]
  | data k d md =>
    simp only [partKind, partTag] at h
    subst h
    cases md <;> rfl

/-- Witness for C3 at concrete parts of each variant. -/
theorem C3_part_roundtrip_witness :
    unmarshalPart (encodePart (.text ("text") ("hi") [])) = .ok (.text ("text") ("hi") []) ∧
    unmarshalPart (encodePart (.file ("file") ⟨"f.txt", "", "aGk=", ""⟩ [])) =
      .ok (.file ("file") ⟨"f.txt", "", "aGk=", ""⟩ []) ∧
    unmarshalPart (encodePart (.data ("data") [("x", .num 1)] [])) =
      .ok (.data ("data") [("x", .num 1)] []) :=
  ⟨C3_part_roundtrip _ rfl, C3_part_roundtrip _ rfl, C3_part_roundtrip _ rfl⟩

/-- Claim C6. Encoding a Message whose messageId is empty fails with the
required-identifier error, and decoding a message object whose messageId
key is absent or holds the empty string also fails: the identifier is
never silently defaulted in either direction. -/
theorem C6_message_id_required :
    (∀ m : Message, m.messageId = "" → marshalMessage m = .error ("messageId is required")) ∧
    (∀ kvs : GoMap,
      lookupLast ("messageId") kvs = none ∨ lookupLast ("messageId") kvs = some (.str ("")) →
      ∃ e, unmarshalMessage (.obj kvs) = .error e) := by
  constructor
  · intro m h
    simp [marshalMessage, h]
  · intro kvs h
    cases hw : decodeMessageWrapper (.obj kvs) with
    | error e => exact ⟨e, by simp only [unmarshalMessage, hw, error_bind]⟩
    | ok w =>
      refine ⟨"messageId is required", ?_⟩
      have hw2 := hw
      simp only [decodeMessageWrapper, bind_eq_ok_iff] at hw2
      obtain ⟨kind, hkind, mid, hmidGet, role, hrole, pr, hpr, md, hmd, tid, htid, cid, hcid,
        rids, hrids, heq⟩ := hw2
      have hmideq : mid = "" := by
        rcases h with hnone | hempty
        · simp [getStr, hnone] at hmidGet
          exact hmidGet.symm
        · simp [getStr, hempty] at hmidGet
          exact hmidGet.symm
      have hwmid : w.messageId = "" := by
        simp only [Except.ok.injEq] at heq
        rw [← heq]
        exact hmideq
      simp only [unmarshalMessage, hw, ok_bind]
      simp [hwmid]

/-- Witness for C6: encoding the zero message fails, and decoding an
object lacking the messageId key fails. -/
theorem C6_message_id_required_witness :
    marshalMessage Message.zero = .error ("messageId is required") ∧
    ∃ e, unmarshalMessage (.obj [("role", .str ("user"))]) = .error e :=
  ⟨C6_message_id_required.1 Message.zero rfl,
   C6_message_id_required.2 _ (Or.inl rfl)⟩

/-- Claim C7, counterexample. Decoding a request whose method is outside the
method table does not fail with MethodNotFound (or at all): the default
branch of the switch returns successfully and leaves the params nil. -/
theorem C7_counterexample :
    unmarshalRequest (.obj [("jsonrpc", .str ("2.0")), ("id", .num 1),
        ("method", .str ("tasks/unknown")), ("params", .obj [])]) =
      .ok ⟨"2.0", some (.num 1), "tasks/unknown", none⟩ := rfl

/-- Claim C7, as amended. Once the request wrapper has decoded, a method
outside the five-entry switch yields a successful decode with nil params
(no MethodNotFound error), and for any method whose params decode fails
the raw params decode error is propagated verbatim (no InvalidParams
code is attached). -/
theorem C7_request_decode (j : Json) (w : RequestWrapper)
    (hw : decodeRequestWrapper j = .ok w) :
    (w.method ≠ TasksSend → w.method ≠ TasksSendSubscribe → w.method ≠ TasksGet →
      w.method ≠ TasksCancel → w.method ≠ TasksResubscribe →
      unmarshalRequest j = .ok ⟨w.jsonrpc, w.id, w.method, none⟩) ∧
    (∀ e, decodeParamsFor w.method w.params = .error e → unmarshalRequest j = .error e) := by
  constructor
  · intro h1 h2 h3 h4 h5
    have hp : decodeParamsFor w.method w.params = .ok none := by
      simp [decodeParamsFor, h1, h2, h3, h4, h5]
    simp only [unmarshalRequest, hw, ok_bind, hp]
  · intro e he
    simp only [unmarshalRequest, hw, ok_bind, he, error_bind]

/-- Witness for C7: a request with an unknown method decodes successfully
with nil params, and a request with method tasks/get and ill-typed
params fails with the propagated raw decode error. -/
theorem C7_request_decode_witness :
    unmarshalRequest (.obj [("jsonrpc", .str ("2.0")), ("method", .str ("tasks/unknown"))]) =
      .ok ⟨"2.0", none, "tasks/unknown", none⟩ ∧
    unmarshalRequest (.obj [("method", .str ("tasks/get")), ("params", .str ("x"))]) =
      .error ("cannot unmarshal into TaskQueryParams") :=
  ⟨(C7_request_decode (.obj [("jsonrpc", .str ("2.0")), ("method", .str ("tasks/unknown"))])
      ⟨"2.0", none, "tasks/unknown", none⟩ rfl).1
      (by decide) (by decide) (by decide) (by decide) (by decide),
   (C7_request_decode (.obj [("method", .str ("tasks/get")), ("params", .str ("x"))])
      ⟨"", none, "tasks/get", some (.str ("x"))⟩ rfl).2 _ rfl⟩

/-- Claim C8. The tasks/sendSubscribe branch persists the serialised request
under the printed request id with a fixed sixty second expiry and
acknowledges; a subscription whose id is not readable from the store
receives the client-visible request-id-not-found error response and no
stream handler or channel is attached; and a record is unreadable both
after its ttl has elapsed and when it was never written, the two cases
being indistinguishable to the reader. -/
theorem C8_correlator :
    (∀ (now : Nat) (store : Store) (r : JSONRPCRequest) (idJson : Json) (raw : Json),
      r.id = some idJson → marshalRequest r = .ok raw →
      handleSendSubscribe now store r =
        (storeWrite now store (jsonKey idJson) raw 60, .okNull)) ∧
    (∀ (now : Nat) (store : Store) (id : String), storeRead now store id = none →
      streamHandlerMiddleware now store (some id) =
        .errorResp 500 (NewError ErrorInternal ("request id no found") [])) ∧
    (∀ (now : Nat) (store : Store) (key : String) (value : Json) (expiry now2 : Nat),
      now + expiry ≤ now2 →
      storeRead now2 (storeWrite now store key value expiry) key = none) ∧
    (∀ (now : Nat) (key : String), storeRead now ([] : Store) key = none) := by
  refine ⟨?_, ?_, ?_, ?_⟩
  · intro now store r idJson raw h1 h2
    simp [handleSendSubscribe, h1, h2]
  · intro now store id h
    simp [streamHandlerMiddleware, h]
  · intro now store key value expiry now2 h
    simp only [storeWrite, storeRead, List.find?, beq_self_eq_true]
    rw [if_neg (by omega)]
  · intro now key
    rfl

/-- Witness for C8 at concrete inputs: a stored subscribe request, a
missing-id subscription, an expired read and a never-written read. -/
theorem C8_correlator_witness :
    handleSendSubscribe 0 [] ⟨"2.0", some (.str ("abc")), TasksSendSubscribe, none⟩ =
      (storeWrite 0 [] (jsonKey (.str ("abc")))
        (.obj [("jsonrpc", .str ("2.0")), ("id", .str ("abc")),
          ("method", .str ("tasks/sendSubscribe"))]) 60, .okNull) ∧
    streamHandlerMiddleware 0 [] (some ("missing")) =
      .errorResp 500 (NewError ErrorInternal ("request id no found") []) ∧
    storeRead 60 (storeWrite 0 [] ("k") .null 60) ("k") = none ∧
    storeRead 0 ([] : Store) ("k") = none :=
  ⟨C8_correlator.1 0 [] _ _ _ rfl rfl,
   C8_correlator.2.1 0 [] _ rfl,
   C8_correlator.2.2.1 0 [] ("k") .null 60 60 (by decide),
   C8_correlator.2.2.2 0 ("k")⟩

/-- Claim C1, counterexample. A response whose result object carries an
artifact key but no top-level id key does not decode to a
TaskArtifactUpdateEvent as the claim requires: every branch of the
result inference is guarded by the id key, so this response decodes
successfully with no result at all. -/
theorem C1_counterexample :
    unmarshalResponse (.obj [("jsonrpc", .str ("2.0")), ("id", .num 1),
        ("result", .obj [("artifact",
          .obj [("artifactId", .str ("a1")), ("parts", .arr [])])])]) =
      .ok ⟨"2.0", some (.num 1), none, none⟩ := rfl

/-- Claim C1, as amended. The result-shape inference requires the top-level id
key before any variant is chosen: with id and status present the Task
decoder runs, and the result can only be a Task (never an update event);
with id present, status absent and artifact present the artifact-event
decoder runs; with id present, status and artifact absent and final
present the status-event decoder runs; with id present and none of the
three keys, or with id absent whatever other keys are present, no result
is produced and no error is raised. -/
theorem C1_result_inference (rkvs : GoMap) :
    (lookupLast ("id") rkvs = none → inferResult (.obj rkvs) = .ok none) ∧
    ((lookupLast ("id") rkvs).isSome → (lookupLast ("status") rkvs).isSome →
      inferResult (.obj rkvs) = (unmarshalTask (.obj rkvs)).map (fun t => some (.task t))) ∧
    ((lookupLast ("id") rkvs).isSome → (lookupLast ("status") rkvs).isSome →
      ∀ res, inferResult (.obj rkvs) = .ok (some res) → ∃ t, res = .task t) ∧
    ((lookupLast ("id") rkvs).isSome → lookupLast ("status") rkvs = none →
      (lookupLast ("artifact") rkvs).isSome →
      inferResult (.obj rkvs) =
        (unmarshalArtifactEvent (.obj rkvs)).map (fun e => some (.artifactEvent e))) ∧
    ((lookupLast ("id") rkvs).isSome → lookupLast ("status") rkvs = none →
      lookupLast ("artifact") rkvs = none → (lookupLast ("final") rkvs).isSome →
      inferResult (.obj rkvs) =
        (unmarshalStatusEvent (.obj rkvs)).map (fun e => some (.statusEvent e))) ∧
    ((lookupLast ("id") rkvs).isSome → lookupLast ("status") rkvs = none →
      lookupLast ("artifact") rkvs = none → lookupLast ("final") rkvs = none →
      inferResult (.obj rkvs) = .ok none) := by
  have hunf : inferResult (.obj rkvs) =
      (if (lookupLast ("id") rkvs).isSome then
        if (lookupLast ("status") rkvs).isSome then
          (unmarshalTask (.obj rkvs)).map (fun t => some (.task t))
        else if (lookupLast ("artifact") rkvs).isSome then
          (unmarshalArtifactEvent (.obj rkvs)).map (fun e => some (.artifactEvent e))
        else if (lookupLast ("final") rkvs).isSome then
          (unmarshalStatusEvent (.obj rkvs)).map (fun e => some (.statusEvent e))
        else .ok none
      else .ok none) := rfl
  refine ⟨?_, ?_, ?_, ?_, ?_, ?_⟩
  · intro h
    simp [hunf, h]
  · intro h1 h2
    simp [hunf, h1, h2]
  · intro h1 h2 res hres
    rw [hunf] at hres
    simp only [h1, h2, if_true] at hres
    cases hu : unmarshalTask (.obj rkvs) with
    | ok t =>
      rw [hu, map_ok] at hres
      simp only [Except.ok.injEq, Option.some.injEq] at hres
      exact ⟨t, hres.symm⟩
    | error er =>
      rw [hu, map_error] at hres
      simp at hres
  · intro h1 h2 h3
    simp [hunf, h1, h2, h3]
  · intro h1 h2 h3 h4
    simp [hunf, h1, h2, h3, h4]
  · intro h1 h2 h3 h4
    simp [hunf, h1, h2, h3, h4]

/-- Witness for C1: an id-and-status result object takes the Task branch,
and an artifact-only result object yields no result. -/
theorem C1_result_inference_witness :
    inferResult (.obj [("id", .str ("t1")), ("status", .obj [("state", .str ("completed"))])]) =
      (unmarshalTask (.obj [("id", .str ("t1")),
        ("status", .obj [("state", .str ("completed"))])])).map (fun t => some (.task t)) ∧
    inferResult (.obj [("artifact", .null)]) = .ok none :=
  ⟨(C1_result_inference _).2.1 rfl rfl, (C1_result_inference _).1 rfl⟩

/-- Claim C2, counterexample. A response value carrying both a non-nil result
and a non-nil error encodes with both the result and the error field
present: the encoder performs no mutual-exclusion check. -/
theorem C2_counterexample :
    (marshalResponse ⟨"2.0", none,
        some (.statusEvent ⟨"t1", ⟨"completed", none, ""⟩, true, []⟩),
        some ⟨-32600, "bad", []⟩⟩).map
      (fun j => (jsonHasKey j ("result"), jsonHasKey j ("error"))) = .ok (true, true) := rfl

/-- Claim C2, as amended. The encoder writes the result field exactly when the
Result field is non-nil and the error field exactly when the Error
pointer is non-nil; it never fabricates a second field, but it also
performs no mutual-exclusion check, so a response value with both set is
encoded with both fields present. -/
theorem C2_result_error_encoding (r : JSONRPCResponse) (j : Json)
    (h : marshalResponse r = .ok j) :
    jsonHasKey j ("result") = r.result.isSome ∧ jsonHasKey j ("error") = r.error.isSome := by
  obtain ⟨jsonrpc, id, result, error⟩ := r
  cases result with
  | none =>
    simp only [marshalResponse, ok_bind, Except.ok.injEq] at h
    subst h
    cases id <;> cases error <;>
      simp [jsonHasKey, lookupLast_append, lookupLast, optIdEntry]
  | some v =>
    cases hv : marshalResult v with
    | error er => simp [marshalResponse, hv, error_bind, map_error] at h
    | ok rj =>
      simp only [marshalResponse, hv, map_ok, ok_bind, Except.ok.injEq] at h
      subst h
      cases id <;> cases error <;>
        simp [jsonHasKey, lookupLast_append, lookupLast, optIdEntry]

/-- Witness for C2: a response with only an error set encodes with the
error field and without the result field. -/
theorem C2_result_error_encoding_witness :
    jsonHasKey (.obj [("jsonrpc", .str ("2.0")),
        ("error", .obj [("code", .num (-32603)), ("message", .str ("boom"))])]) ("result") =
      (none : Option ResultV).isSome ∧
    jsonHasKey (.obj [("jsonrpc", .str ("2.0")),
        ("error", .obj [("code", .num (-32603)), ("message", .str ("boom"))])]) ("error") =
      (some (⟨-32603, "boom", []⟩ : JSONRPCError)).isSome :=
  C2_result_error_encoding ⟨"2.0", none, none, some ⟨-32603, "boom", []⟩⟩
    (.obj [("jsonrpc", .str ("2.0")),
      ("error", .obj [("code", .num (-32603)), ("message", .str ("boom"))])]) rfl

/-- Claim C10. Every successfully marshalled TaskStatusUpdateEvent carries both
the id and the status key, because status is a required always-written
field; the response result inference therefore classifies the
round-tripped event through the Task branch, and the decoded result is
never a status or artifact update event. -/
theorem C10_status_event_reads_back_as_task (e : TaskStatusUpdateEvent) (j : Json)
    (h : marshalStatusEvent e = .ok j) :
    jsonHasKey j ("id") = true ∧ jsonHasKey j ("status") = true ∧
    inferResult j = (unmarshalTask j).map (fun t => some (.task t)) ∧
    (∀ ev, inferResult j ≠ .ok (some (.statusEvent ev))) ∧
    (∀ ev, inferResult j ≠ .ok (some (.artifactEvent ev))) := by
  obtain ⟨id, status, final, metadata⟩ := e
  cases hs : marshalTaskStatus status with
  | error er => simp [marshalStatusEvent, hs, error_bind] at h
  | ok sj =>
    simp only [marshalStatusEvent, hs, ok_bind, Except.ok.injEq] at h
    subst h
    cases metadata with
    | nil =>
      have h3 : inferResult (.obj ([("id", .str id), ("status", sj), ("final", .bool final)] ++
          optMapEntry ("metadata") [])) =
          (unmarshalTask (.obj ([("id", .str id), ("status", sj), ("final", .bool final)] ++
            optMapEntry ("metadata") []))).map (fun t => some (.task t)) := rfl
      refine ⟨rfl, rfl, h3, ?_, ?_⟩ <;>
        · intro ev heq
          rw [h3] at heq
          cases hu : unmarshalTask _ with
          | ok t => rw [hu, map_ok] at heq; simp at heq
          | error er2 => rw [hu, map_error] at heq; simp at heq
    | cons kv rest =>
      have h3 : inferResult (.obj ([("id", .str id), ("status", sj), ("final", .bool final)] ++
          optMapEntry ("metadata") (kv :: rest))) =
          (unmarshalTask (.obj ([("id", .str id), ("status", sj), ("final", .bool final)] ++
            optMapEntry ("metadata") (kv :: rest)))).map (fun t => some (.task t)) := rfl
      refine ⟨rfl, rfl, h3, ?_, ?_⟩ <;>
        · intro ev heq
          rw [h3] at heq
          cases hu : unmarshalTask _ with
          | ok t => rw [hu, map_ok] at heq; simp at heq
          | error er2 => rw [hu, map_error] at heq; simp at heq

/-- Witness for C10 at a concrete completed final event. -/
theorem C10_status_event_reads_back_as_task_witness :
    jsonHasKey (.obj [("id", .str ("t1")), ("status", .obj [("state", .str ("completed"))]),
        ("final", .bool true)]) ("id") = true ∧
    jsonHasKey (.obj [("id", .str ("t1")), ("status", .obj [("state", .str ("completed"))]),
        ("final", .bool true)]) ("status") = true ∧
    inferResult (.obj [("id", .str ("t1")), ("status", .obj [("state", .str ("completed"))]),
        ("final", .bool true)]) =
      (unmarshalTask (.obj [("id", .str ("t1")),
        ("status", .obj [("state", .str ("completed"))]),
        ("final", .bool true)])).map (fun t => some (.task t)) := by
  have hmain := C10_status_event_reads_back_as_task ⟨"t1", ⟨"completed", none, ""⟩, true, []⟩
    (.obj [("id", .str ("t1")), ("status", .obj [("state", .str ("completed"))]),
      ("final", .bool true)]) rfl
  exact ⟨hmain.1, hmain.2.1, hmain.2.2.1⟩

end MicroA2A
